import Mathlib

/-!
Verification development for the DataLens schema-introspection and
quality-profiling service.  The Python source is shallowly embedded:
pure data manipulation becomes Lean functions over rationals and lists,
database queries and other effectful steps become explicit oracle
inputs (`Except` values), and Python dicts become insertion-ordered
association lists with overwrite-on-insert semantics.
-/

set_option maxHeartbeats 1000000

namespace DataLens

/- Batteries marks rational arithmetic irreducible for the elaborator;
the kernel reduces it fine, and concrete evaluations below need the
elaborator to follow suit. -/
attribute [local semireducible] Rat.add Rat.mul Rat.sub Rat.inv Rat.ofScientific

/-! ## Sampled cells

A cell of a sampled dataframe is either missing (pandas NaN / SQL NULL),
a non-numeric value carrying its display string, or a numeric value.
`pd.to_numeric(series, errors="coerce").dropna()` keeps exactly the
numeric cells. -/

inductive Cell where
  | null
  | str (s : String)
  | num (q : ℚ)
deriving DecidableEq, Repr

def Cell.toNum : Cell → Option ℚ
  | .num q => some q
  | _ => none

def Cell.isNull : Cell → Bool
  | .null => true
  | _ => false

/-- `series.isna().sum()` -/
def nullCountOf (cells : List Cell) : Nat :=
  (cells.filter fun c => c.isNull).length

/-- `series.nunique()`: distinct values, missing values dropped. -/
def distinctCountOf (cells : List Cell) : Nat :=
  ((cells.filter fun c => !c.isNull).dedup).length

/-- `pd.to_numeric(series, errors="coerce").dropna()` -/
def numericSeries (cells : List Cell) : List ℚ :=
  cells.filterMap Cell.toNum

/-- `series.duplicated().any()`: some value (missing included) occurs twice. -/
def hasDuplicate (cells : List Cell) : Bool :=
  decide (cells.dedup.length ≠ cells.length)

/-! ## Python rounding

Python `round` ties to the nearest even integer (banker rounding);
`round(x, d)` rounds at `d` decimal digits. -/

def pyRoundInt (q : ℚ) : ℤ :=
  let f := ⌊q⌋
  let frac := q - (f : ℚ)
  if frac < 1/2 then f
  else if 1/2 < frac then f + 1
  else if f % 2 = 0 then f else f + 1

def pyRound (q : ℚ) (d : ℕ) : ℚ :=
  ((pyRoundInt (q * (10 : ℚ) ^ d) : ℚ)) / (10 : ℚ) ^ d

/-! ## Numeric-series statistics (pandas / scipy over rationals)

Standard deviations never appear directly: every comparison made by the
source against a standard deviation is expressed against the variance,
which is rational. -/

def sumQ (l : List ℚ) : ℚ := l.foldl (fun a x => a + x) 0

def meanQ (l : List ℚ) : ℚ := sumQ l / (l.length : ℚ)

def insertSorted (x : ℚ) : List ℚ → List ℚ
  | [] => [x]
  | y :: ys => if x ≤ y then x :: y :: ys else y :: insertSorted x ys

def sortQ (l : List ℚ) : List ℚ := l.foldr insertSorted []

def listMin (l : List ℚ) : ℚ :=
  match l with
  | [] => 0
  | x :: xs => xs.foldl min x

def listMax (l : List ℚ) : ℚ :=
  match l with
  | [] => 0
  | x :: xs => xs.foldl max x

/-- pandas `Series.quantile(p)` with the default linear interpolation:
sort, locate position `p * (n - 1)`, interpolate between the bracketing
order statistics. -/
def quantile (l : List ℚ) (p : ℚ) : ℚ :=
  match sortQ l with
  | [] => 0
  | s =>
    let n := s.length
    let pos := p * ((n : ℚ) - 1)
    let i := (⌊pos⌋).toNat
    let frac := pos - (i : ℚ)
    let lo := s.getD i 0
    let hi := s.getD (i + 1) lo
    lo + frac * (hi - lo)

def sqDevSum (l : List ℚ) : ℚ :=
  sumQ (l.map fun x => (x - meanQ l) ^ 2)

/-- Square of pandas `Series.std()` (sample variance, ddof = 1); a
series of length at most 1 has NaN std, and every `> 0` comparison made
against it in the source is false, which the value 0 reproduces. -/
def sampleVar (l : List ℚ) : ℚ :=
  if l.length ≤ 1 then 0 else sqDevSum l / ((l.length : ℚ) - 1)

/-- Square of the population standard deviation used by
`scipy.stats.zscore` (ddof = 0). -/
def popVar (l : List ℚ) : ℚ := sqDevSum l / (l.length : ℚ)

/-- Count of values outside the Tukey fences
`[Q1 - 1.5*IQR, Q3 + 1.5*IQR]`. -/
def iqrOutlierCount (l : List ℚ) : Nat :=
  let q1 := quantile l (1/4)
  let q3 := quantile l (3/4)
  let iqr := q3 - q1
  (l.filter fun x => decide (x < q1 - 3/2 * iqr) || decide (q3 + 3/2 * iqr < x)).length

/-- Count of values with `|zscore| > 3`; with a positive population
variance this is exactly `(x - mean)^2 > 9 * popVar`. -/
def zOutlierCount (l : List ℚ) : Nat :=
  (l.filter fun x => decide (9 * popVar l < (x - meanQ l) ^ 2)).length

/-- Lines 88-97 of quality.py: Tukey-fence count, then, only when the
sample standard deviation is positive, the max with the z-score count. -/
def outlierCountOf (l : List ℚ) : Nat :=
  let base := iqrOutlierCount l
  if 0 < sampleVar l then max base (zOutlierCount l) else base

/-! ## Per-column quality record -/

/-- A quality-record entry for skewness or kurtosis: absent from the
record, present with value None, or present with a numeric value. -/
inductive SkewField where
  | absent
  | nullVal
  | value (q : ℚ)
deriving DecidableEq, Repr

structure NumProfile where
  /-- `q["min"]` -/
  nmin : ℚ
  /-- `q["max"]` -/
  nmax : ℚ
  avg : ℚ
  /-- square of `q["stdDev"]` -/
  varSample : ℚ
  p25 : ℚ
  p50 : ℚ
  p75 : ℚ
  p95 : ℚ
  skewness : SkewField
  kurtosis : SkewField
  outlierCount : Nat
  outlierPct : ℚ
deriving DecidableEq, Repr

structure ColQuality where
  completeness : ℚ
  nullCount : Nat
  distinctCount : Nat
  uniquenessRatio : ℚ
  /-- the numeric sub-profile, present only when at least 5 sampled
  values coerce to a number -/
  numeric : Option NumProfile
deriving DecidableEq, Repr

/-- Lines 56-100 of quality.py: per-column metrics over the sampled
cells.  `rowCount` is the already-floored table row count
(`max(len(df), 1)`); `skewRes` is the outcome of the opaque
`scipy.stats.skew` / `scipy.stats.kurtosis` float computation, `.error`
when it raises. -/
def computeColQuality (cells : List Cell) (rowCount : Nat)
    (skewRes : Except Unit (ℚ × ℚ)) : ColQuality :=
  let nc := nullCountOf cells
  let dc := distinctCountOf cells
  let compl := pyRound ((1 - (nc : ℚ) / (rowCount : ℚ)) * 100) 2
  let uniq := if 0 < rowCount then pyRound ((dc : ℚ) / (rowCount : ℚ)) 4 else 0
  let ns := numericSeries cells
  let numeric :=
    if 5 ≤ ns.length then
      let oc := outlierCountOf ns
      some ({
        nmin := listMin ns
        nmax := listMax ns
        avg := meanQ ns
        varSample := sampleVar ns
        p25 := quantile ns (1/4)
        p50 := quantile ns (1/2)
        p75 := quantile ns (3/4)
        p95 := quantile ns (19/20)
        skewness := match skewRes with
          | .ok sk => .value sk.1
          | .error _ => .nullVal
        kurtosis := match skewRes with
          | .ok sk => .value sk.2
          | .error _ => .nullVal
        outlierCount := oc
        outlierPct := pyRound ((oc : ℚ) / (rowCount : ℚ) * 100) 2 } : NumProfile)
    else none
  { completeness := compl
    nullCount := nc
    distinctCount := dc
    uniquenessRatio := uniq
    numeric := numeric }

/-! ## Schema data model -/

structure Column where
  name : String
  dataType : String
  isNullable : Bool := true
  defaultValue : Option String := none
  isPrimaryKey : Bool := false
  isForeignKey : Bool := false
  isUnique : Bool := false
  isIndexed : Bool := false
  /-- `foreignKeyRef` as a (table, column) pair -/
  foreignKeyRef : Option (String × String) := none
  quality : Option ColQuality := none
deriving DecidableEq, Repr

structure Table where
  name : String
  rowCount : ℤ := 0
  sizeBytes : ℤ := 0
  lastModified : Option String := none
  columns : List Column := []
  referencedBy : List (String × String) := []
  qualityScore : Option ℤ := none
  qualityFlags : List String := []
deriving DecidableEq, Repr

/-! ## Sampled dataframe

`pd.read_sql` returns a dataframe: named columns of cells plus a row
count (`len(df)`). -/

structure Sample where
  cols : List (String × List Cell)
  nrows : Nat
deriving DecidableEq, Repr

/-- `cn in df.columns` / `df[cn]`: the first column with that name. -/
def Sample.findCol (df : Sample) (cn : String) : Option (List Cell) :=
  (df.cols.find? fun p => p.1 = cn).map Prod.snd

/-! ## Oracles for the effectful checks

The staleness check (lines 121-132) parses the sampled column with
pandas and compares its newest value against the wall clock; the
foreign-key check (lines 134-143) runs a live LEFT JOIN.  Both are
world-dependent, so the embedding takes their outcomes as inputs. -/

/-- Outcome of `pd.to_datetime(df[dcol], errors="coerce").dropna()`
followed by the age computation: the try body raised, the parsed series
was empty, or the newest value is `n` days old. -/
inductive StaleResult where
  | raised
  | parsedEmpty
  | daysOld (n : ℤ)
deriving DecidableEq, Repr

/-- Outcome of `_check_fk_integrity`: raised, or returned a count. -/
inductive FkResult where
  | raised
  | count (n : ℤ)
deriving DecidableEq, Repr

/-- Everything the processing of one table reads from the world: the
sample load outcome, the skew/kurtosis computation outcome per column,
the staleness outcome per date/time column, and the orphan-count
outcome per foreign-key column. -/
structure TableOracle where
  sample : Except String Sample
  skew : String → Except Unit (ℚ × ℚ)
  stale : String → StaleResult
  fk : String → FkResult

/-! ## The per-table quality pass (quality.py lines 30-147) -/

def lowCompletenessFlag (cn : String) (compl : ℚ) : String :=
  "Column " ++ cn ++ " is only " ++ (toString (pyRoundInt compl)) ++ "% complete"

/-- Substring test on character lists (`needle in haystack`). -/
def listHasSub (needle : List Char) : List Char → Bool
  | [] => decide (needle = [])
  | c :: t => decide (needle = (c :: t).take needle.length) || listHasSub needle t

def strContains (hay needle : String) : Bool :=
  listHasSub needle.toList hay.toList

def charLower (c : Char) : Char :=
  if 65 ≤ c.toNat ∧ c.toNat ≤ 90 then Char.ofNat (c.toNat + 32) else c

/-- ASCII lowering of Python str.lower(); the catalog type names the
source compares against are ASCII. -/
def strToLower (s : String) : String :=
  String.mk (s.data.map charLower)

/-- `any(dt in c["dataType"].lower() for dt in ["date", "time", "timestamp"])` -/
def isDatetimeType (dataType : String) : Bool :=
  strContains (strToLower dataType) ("date")
    || strContains (strToLower dataType) ("time")
    || strContains (strToLower dataType) ("timestamp")

/-- One step of the column loop (lines 50-107): a column absent from
the dataframe is passed through untouched; otherwise its quality record
is computed and the low-completeness deduction and flag applied. -/
def colStep (df : Sample) (rowCount : Nat) (skew : String → Except Unit (ℚ × ℚ))
    (acc : List Column × List String × ℚ) (col : Column) :
    List Column × List String × ℚ :=
  match df.findCol col.name with
  | none => (acc.1 ++ [col], acc.2.1, acc.2.2)
  | some cells =>
    let q := computeColQuality cells rowCount (skew col.name)
    if q.completeness < 80 then
      (acc.1 ++ [{ col with quality := some q }],
       acc.2.1 ++ [lowCompletenessFlag col.name q.completeness],
       acc.2.2 - min 10 ((80 - q.completeness) / 4))
    else
      (acc.1 ++ [{ col with quality := some q }], acc.2.1, acc.2.2)

/-- The primary-key duplicate check (lines 111-119): only the first
declared primary-key column is examined, and only when it is present in
the dataframe. -/
def pkStep (df : Sample) (columns : List Column)
    (acc : List String × ℚ) : List String × ℚ :=
  match (columns.filter fun c => c.isPrimaryKey).map Column.name with
  | [] => acc
  | pk :: _ =>
    match df.findCol pk with
    | none => acc
    | some cells =>
      if hasDuplicate cells then
        (acc.1 ++ ["Primary key column " ++ pk ++ " has duplicate values"],
         acc.2 - 20)
      else acc

/-- One step of the staleness loop (lines 122-132). -/
def staleStep (df : Sample) (stale : String → StaleResult)
    (acc : List String × ℚ) (dcol : String) : List String × ℚ :=
  match df.findCol dcol with
  | none => acc
  | some _ =>
    match stale dcol with
    | .raised => acc
    | .parsedEmpty => acc
    | .daysOld n =>
      if 90 < n then
        (acc.1 ++ ["Data may be stale, newest " ++ dcol ++ " value is "
                     ++ (toString n) ++ " days old"],
         acc.2 - 5)
      else acc

/-- One step of the foreign-key loop (lines 135-143). -/
def fkStep (fk : String → FkResult) (acc : List String × ℚ) (col : Column) :
    List String × ℚ :=
  match fk col.name with
  | .raised => acc
  | .count n =>
    if 0 < n then
      (acc.1 ++ ["FK column " ++ col.name ++ " has " ++ (toString n)
                   ++ " orphaned references"],
       acc.2 - min 15 (n : ℚ))
    else acc

/-- `datetime_cols` (line 121): names of the columns whose declared
type mentions date, time or timestamp. -/
def dtColNames (columns : List Column) : List String :=
  (columns.filter fun c => isDatetimeType c.dataType).map Column.name

/-- `fk_cols[:3]` (lines 134-135): the first three declared foreign-key
columns that carry a reference. -/
def fkColumns3 (columns : List Column) : List Column :=
  (columns.filter fun c => c.isForeignKey && c.foreignKeyRef.isSome).take 3

/-- Lines 30-147 of quality.py: process one table.  A failed sample
load short-circuits to the fallback score and single flag; otherwise
the four checks run in source order on a score starting at 100, and the
stored score is `max(0, round(score))`. -/
def processTable (t : Table) (o : TableOracle) : Table :=
  match o.sample with
  | .error _ =>
    { t with qualityScore := some 50
             qualityFlags := ["Could not load sample data for analysis"] }
  | .ok df =>
    let rowCount := max df.nrows 1
    let afterCols := t.columns.foldl (colStep df rowCount o.skew) ([], [], (100 : ℚ))
    let afterPk := pkStep df t.columns (afterCols.2.1, afterCols.2.2)
    let afterStale := (dtColNames t.columns).foldl (staleStep df o.stale) afterPk
    let afterFk := (fkColumns3 t.columns).foldl (fkStep o.fk) afterStale
    { t with columns := afterCols.1
             qualityScore := some (max 0 (pyRoundInt afterFk.2))
             qualityFlags := afterFk.1 }

/-! ## Connection handling and the whole run -/

/-- `_get_db_connection` (lines 160-191): postgres, mysql and mssql
produce a live connection; every other tag raises ValueError. -/
def getDbConnection (dbType : String) : Except String Unit :=
  if dbType = "postgres" then .ok ()
  else if dbType = "mysql" then .ok ()
  else if dbType = "mssql" then .ok ()
  else .error ("Unsupported db_type for quality analysis: " ++ dbType)

inductive SelectCols where
  | star
  | cols (l : List String)
deriving DecidableEq, Repr

inductive LimitClause where
  | top (n : Nat)
  | limit (n : Nat)
deriving DecidableEq, Repr

structure SampleQuery where
  safeTable : String
  select : SelectCols
  limitClause : LimitClause
deriving DecidableEq, Repr

/-- `_load_sample` (lines 194-200): the query it sends.  The
`col_names` argument is accepted but never used; the query selects `*`. -/
def loadSampleQuery (dbType tableName : String) (colNames : List String) :
    SampleQuery :=
  let safeTable :=
    if dbType = "postgres" then "\"" ++ tableName ++ "\""
    else if dbType = "mysql" then "`" ++ tableName ++ "`"
    else "[" ++ tableName ++ "]"
  let _ := colNames
  if dbType = "mssql" then
    { safeTable := safeTable, select := .star, limitClause := .top 10000 }
  else
    { safeTable := safeTable, select := .star, limitClause := .limit 10000 }

structure Snapshot where
  dbType : String
  tables : List Table
deriving Repr

/-- Outcome of one `run_quality_analysis` call, with the lifecycle of
the analysis database connection made explicit: how many such
connections were opened and whether the opened one was closed before
the call returned.  The source closes the Mongo client on the success
path but contains no `conn.close()` at all. -/
structure RunOutcome where
  result : Except String (List Table)
  dbConnsOpened : Nat
  dbConnClosed : Bool
deriving Repr

/-- Lines 24-157 of quality.py: open one connection for the whole run
(raising for unsupported dialects before any table is touched), process
every table of the snapshot in order with that connection, and return.
No exit path closes the analysis connection. -/
def runQualityAnalysis (snap : Snapshot) (oracle : String → TableOracle) :
    RunOutcome :=
  match getDbConnection snap.dbType with
  | .error e => { result := .error e, dbConnsOpened := 0, dbConnClosed := false }
  | .ok _ =>
    { result := .ok (snap.tables.map fun t => processTable t (oracle t.name))
      dbConnsOpened := 1
      dbConnClosed := false }

/-! ## Closed forms of the per-table pass

The imperative loops of processTable are characterised below against
these direct definitions of each deduction and flag family. -/

/-- What the column loop does to one column: columns absent from the
dataframe pass through, the rest get a quality record. -/
def colUpdate (df : Sample) (rowCount : Nat)
    (skew : String → Except Unit (ℚ × ℚ)) (col : Column) : Column :=
  match df.findCol col.name with
  | none => col
  | some cells =>
    { col with quality := some (computeColQuality cells rowCount (skew col.name)) }

/-- Low-completeness deduction contributed by one column. -/
def colDeduction (df : Sample) (rowCount : Nat)
    (skew : String → Except Unit (ℚ × ℚ)) (col : Column) : ℚ :=
  match df.findCol col.name with
  | none => 0
  | some cells =>
    let c := (computeColQuality cells rowCount (skew col.name)).completeness
    if c < 80 then min 10 ((80 - c) / 4) else 0

def compDeduction (df : Sample) (rowCount : Nat)
    (skew : String → Except Unit (ℚ × ℚ)) (cols : List Column) : ℚ :=
  sumQ (cols.map (colDeduction df rowCount skew))

/-- Low-completeness flags in column order. -/
def colFlags (df : Sample) (rowCount : Nat)
    (skew : String → Except Unit (ℚ × ℚ)) (cols : List Column) : List String :=
  cols.filterMap fun col =>
    match df.findCol col.name with
    | none => none
    | some cells =>
      let q := computeColQuality cells rowCount (skew col.name)
      if q.completeness < 80 then some (lowCompletenessFlag col.name q.completeness)
      else none

/-- The first declared primary-key column is present in the dataframe
and its sampled values contain a duplicate. -/
def pkDup (df : Sample) (columns : List Column) : Bool :=
  match (columns.filter fun c => c.isPrimaryKey).map Column.name with
  | [] => false
  | pk :: _ =>
    match df.findCol pk with
    | none => false
    | some cells => hasDuplicate cells

def pkFlags (df : Sample) (columns : List Column) : List String :=
  match (columns.filter fun c => c.isPrimaryKey).map Column.name with
  | [] => []
  | pk :: _ =>
    match df.findCol pk with
    | none => []
    | some cells =>
      if hasDuplicate cells then
        ["Primary key column " ++ pk ++ " has duplicate values"]
      else []

/-- A date/time column fires the staleness deduction: present in the
dataframe and its newest parsed value more than 90 days old. -/
def staleFires (df : Sample) (stale : String → StaleResult) (dcol : String) : Bool :=
  match df.findCol dcol with
  | none => false
  | some _ =>
    match stale dcol with
    | .daysOld n => decide (90 < n)
    | _ => false

def staleFlags (df : Sample) (stale : String → StaleResult)
    (dcols : List String) : List String :=
  dcols.filterMap fun dcol =>
    match df.findCol dcol with
    | none => none
    | some _ =>
      match stale dcol with
      | .daysOld n =>
        if 90 < n then
          some ("Data may be stale, newest " ++ dcol ++ " value is "
                  ++ (toString n) ++ " days old")
        else none
      | _ => none

def staleDeduction (df : Sample) (stale : String → StaleResult)
    (dcols : List String) : ℚ :=
  5 * (((dcols.filter (staleFires df stale)).length : ℚ))

/-- Orphan deduction contributed by one foreign-key column. -/
def fkColDeduction (fk : String → FkResult) (col : Column) : ℚ :=
  match fk col.name with
  | .raised => 0
  | .count n => if 0 < n then min 15 (n : ℚ) else 0

def fkDeduction (fk : String → FkResult) (cols : List Column) : ℚ :=
  sumQ (cols.map (fkColDeduction fk))

def fkFlags (fk : String → FkResult) (cols : List Column) : List String :=
  cols.filterMap fun col =>
    match fk col.name with
    | .raised => none
    | .count n =>
      if 0 < n then
        some ("FK column " ++ col.name ++ " has " ++ (toString n)
                ++ " orphaned references")
      else none

/-- The pre-rounding, pre-flooring table score: 100 minus the four
deduction families. -/
def rawScore (df : Sample) (skew : String → Except Unit (ℚ × ℚ))
    (stale : String → StaleResult) (fk : String → FkResult)
    (columns : List Column) : ℚ :=
  100 - compDeduction df (max df.nrows 1) skew columns
      - (if pkDup df columns then 20 else 0)
      - staleDeduction df stale (dtColNames columns)
      - fkDeduction fk (fkColumns3 columns)

/-! ## Connector registry (connectors/init, get_connector) -/

inductive Connector where
  | postgres
  | mysql
  | mssql
  | snowflake
deriving DecidableEq, Repr

/-- The dict literal of get_connector, in source order. -/
def connectorRegistry : List (String × Connector) :=
  [("postgres", .postgres), ("mysql", .mysql),
   ("mssql", .mssql), ("snowflake", .snowflake)]

/-- `get_connector` (connectors/init lines 7-18): pure dict dispatch;
an unknown tag raises ValueError, a known tag instantiates the class
(whose constructor performs no work and opens no connection). -/
def getConnector (dbType : String) : Except String Connector :=
  match connectorRegistry.lookup dbType with
  | none => .error ("Unsupported database type: " ++ dbType)
  | some c => .ok c

/-! ## Python dict operations

Insertion-ordered association lists: assignment overwrites in place or
appends, `setdefault(k, []).append(v)` appends to the existing entry or
creates one, `get`/`in` find the first matching key. -/

def dictUpsert {α β : Type} [DecidableEq α]
    (d : List (α × β)) (k : α) (v : β) : List (α × β) :=
  if d.any fun p => decide (p.1 = k) then
    d.map fun p => if p.1 = k then (p.1, v) else p
  else d ++ [(k, v)]

def dictLookup {α β : Type} [DecidableEq α] :
    List (α × β) → α → Option β
  | [], _ => none
  | p :: t, k => if p.1 = k then some p.2 else dictLookup t k

def dictAppend {α β : Type} [DecidableEq α]
    (d : List (α × List β)) (k : α) (v : β) : List (α × List β) :=
  if d.any fun p => decide (p.1 = k) then
    d.map fun p => if p.1 = k then (p.1, p.2 ++ [v]) else p
  else d ++ [(k, [v])]

/-- Membership in a dict-of-sets built by `setdefault(t, set()).add(c)`:
the source only ever tests membership, never order or multiplicity. -/
def pairSetMem (rows : List (String × String)) (tn cn : String) : Bool :=
  rows.any fun p => decide (p.1 = tn) && decide (p.2 = cn)

/-! ## Catalog rows (query results fed to extract) -/

/-- One row of the foreign-key catalog query. -/
structure FkRow where
  tableName : String
  columnName : String
  refTable : String
  refColumn : String
deriving DecidableEq, Repr

/-- `fks[(tn, cn)] = ref-pair` over all fk rows (dict assignment: a
repeated key keeps the last row). -/
def buildFks (rows : List FkRow) :
    List ((String × String) × (String × String)) :=
  rows.foldl
    (fun d r => dictUpsert d (r.tableName, r.columnName) (r.refTable, r.refColumn))
    []

/-- `referenced_by.setdefault(ref_table, []).append(pair)` over
`fks.items()`. -/
def buildReferencedBy (fks : List ((String × String) × (String × String))) :
    List (String × List (String × String)) :=
  fks.foldl (fun d e => dictAppend d e.2.1 (e.1.1, e.1.2)) []

/-- One row of the postgres table-stats query. -/
structure PgTableRow where
  tableName : String
  rowCount : ℤ
  sizeBytes : ℤ
  lastAnalyze : Option String
deriving DecidableEq, Repr

/-- One row of the postgres column-metadata query. -/
structure PgColRow where
  tableName : String
  columnName : String
  dataType : String
  isNullable : String
  columnDefault : Option String
deriving DecidableEq, Repr

/-- `str(row["column_default"]) if row["column_default"] else None`:
Python truthiness maps the empty string to None as well. -/
def pgDefaultValue : Option String → Option String
  | none => none
  | some s => if s = "" then none else some s

/-- The Column record built from one postgres column row
(postgres.py lines 121-131). -/
def pgColRecord (pkRows : List (String × String))
    (fks : List ((String × String) × (String × String)))
    (uniqueRows indexRows : List (String × String)) (r : PgColRow) : Column :=
  { name := r.columnName
    dataType := r.dataType
    isNullable := decide (r.isNullable = "YES")
    defaultValue := pgDefaultValue r.columnDefault
    isPrimaryKey := pairSetMem pkRows r.tableName r.columnName
    isForeignKey := (dictLookup fks (r.tableName, r.columnName)).isSome
    isUnique := pairSetMem uniqueRows r.tableName r.columnName
    isIndexed := pairSetMem indexRows r.tableName r.columnName
    foreignKeyRef := dictLookup fks (r.tableName, r.columnName)
    quality := none }

/-- `cols_by_table.setdefault(tn, []).append(column-record)` over the
postgres column rows (postgres.py lines 117-131). -/
def pgColsByTable (rows : List PgColRow) (pkRows : List (String × String))
    (fks : List ((String × String) × (String × String)))
    (uniqueRows indexRows : List (String × String)) :
    List (String × List Column) :=
  rows.foldl
    (fun d r => dictAppend d r.tableName (pgColRecord pkRows fks uniqueRows indexRows r))
    []

/-- Final table assembly of PostgresConnector.extract (lines 133-143). -/
def pgAssemble (trows : List PgTableRow) (crows : List PgColRow)
    (pkRows : List (String × String)) (fkRows : List FkRow)
    (uniqueRows indexRows : List (String × String)) : List Table :=
  let fks := buildFks fkRows
  let refBy := buildReferencedBy fks
  let colsBy := pgColsByTable crows pkRows fks uniqueRows indexRows
  trows.map fun r =>
    { name := r.tableName
      rowCount := r.rowCount
      sizeBytes := r.sizeBytes
      lastModified := r.lastAnalyze
      columns := (dictLookup colsBy r.tableName).getD []
      referencedBy := (dictLookup refBy r.tableName).getD []
      qualityScore := none
      qualityFlags := [] }

/-- Results of the six sequential catalog queries of
PostgresConnector.extract, each of which can raise. -/
structure PgOracle where
  tablesQ : Except String (List PgTableRow)
  colsQ : Except String (List PgColRow)
  pkQ : Except String (List (String × String))
  fkQ : Except String (List FkRow)
  uniqueQ : Except String (List (String × String))
  indexQ : Except String (List (String × String))

def exceptIsOk {ε α : Type} : Except ε α → Bool
  | .ok _ => true
  | .error _ => false

def pgExtractResult (o : PgOracle) : Except String (List Table) := do
  let trows ← o.tablesQ
  let crows ← o.colsQ
  let pkRows ← o.pkQ
  let fkRows ← o.fkQ
  let uniqueRows ← o.uniqueQ
  let indexRows ← o.indexQ
  pure (pgAssemble trows crows pkRows fkRows uniqueRows indexRows)

/-- Outcome of one extract call together with its connection lifecycle. -/
structure ExtractOutcome where
  result : Except String (List Table)
  connClosed : Bool
deriving Repr

/-- PostgresConnector.extract (postgres.py lines 6-147): the queries
run in sequence with no try/finally; `conn.close()` stands on the
success path only, so the connection is closed exactly when every
catalog query succeeded. -/
def pgExtract (o : PgOracle) : ExtractOutcome :=
  { result := pgExtractResult o
    connClosed := exceptIsOk (pgExtractResult o) }

/-- One row of the mysql column-metadata query (adds column_key). -/
structure MyColRow where
  tableName : String
  columnName : String
  dataType : String
  isNullable : String
  columnDefault : Option String
  columnKey : String
deriving DecidableEq, Repr

/-- One row of the mysql table-stats query. -/
structure MyTableRow where
  tableName : String
  rowCount : ℤ
  sizeBytes : ℤ
  lastModified : Option String
deriving DecidableEq, Repr

/-- mysql uses `is not None`, not truthiness, for the default. -/
def myDefaultValue : Option String → Option String
  | none => none
  | some s => some s

/-- The Column record built from one mysql column row
(mysql.py lines 73-84). -/
def myColRecord (fks : List ((String × String) × (String × String)))
    (r : MyColRow) : Column :=
  { name := r.columnName
    dataType := r.dataType
    isNullable := decide (r.isNullable = "YES")
    defaultValue := myDefaultValue r.columnDefault
    isPrimaryKey := decide (r.columnKey = "PRI")
    isForeignKey := (dictLookup fks (r.tableName, r.columnName)).isSome
    isUnique := decide (r.columnKey = "UNI")
    isIndexed := decide (r.columnKey = "PRI") || decide (r.columnKey = "UNI")
                   || decide (r.columnKey = "MUL")
    foreignKeyRef := dictLookup fks (r.tableName, r.columnName)
    quality := none }

/-- `cols_by_table` of MySQLConnector.extract (mysql.py lines 69-84). -/
def myColsByTable (rows : List MyColRow)
    (fks : List ((String × String) × (String × String))) :
    List (String × List Column) :=
  rows.foldl
    (fun d r => dictAppend d r.tableName (myColRecord fks r))
    []

/-- Final table assembly of MySQLConnector.extract (lines 86-96). -/
def myAssemble (trows : List MyTableRow) (crows : List MyColRow)
    (fkRows : List FkRow) : List Table :=
  let fks := buildFks fkRows
  let refBy := buildReferencedBy fks
  let colsBy := myColsByTable crows fks
  trows.map fun r =>
    { name := r.tableName
      rowCount := r.rowCount
      sizeBytes := r.sizeBytes
      lastModified := r.lastModified
      columns := (dictLookup colsBy r.tableName).getD []
      referencedBy := (dictLookup refBy r.tableName).getD []
      qualityScore := none
      qualityFlags := [] }

/-- Results of the three sequential catalog queries of
MySQLConnector.extract. -/
structure MyOracle where
  tablesQ : Except String (List MyTableRow)
  colsQ : Except String (List MyColRow)
  fkQ : Except String (List FkRow)

def myExtractResult (o : MyOracle) : Except String (List Table) := do
  let trows ← o.tablesQ
  let crows ← o.colsQ
  let fkRows ← o.fkQ
  pure (myAssemble trows crows fkRows)

/-- MySQLConnector.extract (mysql.py lines 5-100), same connection
discipline as postgres: closed exactly on the all-queries-succeeded
path. -/
def myExtract (o : MyOracle) : ExtractOutcome :=
  { result := myExtractResult o
    connClosed := exceptIsOk (myExtractResult o) }

/-! ## Concrete fixtures used by witness and counterexample theorems -/

def wSkewErr : String → Except Unit (ℚ × ℚ) := fun _ => Except.error ()

def wStaleNone : String → StaleResult := fun _ => StaleResult.raised

def wFkNone : String → FkResult := fun _ => FkResult.raised

/-- An oracle whose every sample load fails. -/
def trivOracle : String → TableOracle := fun _ =>
  { sample := Except.error ("no sample")
    skew := wSkewErr
    stale := wStaleNone
    fk := wFkNone }

def wColC1 : Column := { name := "c1", dataType := "text" }

def wTableA : Table := { name := "t1", columns := [wColC1] }

def wTableB : Table := { name := "t2" }

def wSampleEmpty : Sample := { cols := [], nrows := 0 }

/-- Sampling fails for table t1 and succeeds for every other table. -/
def wOracleC1 : String → TableOracle := fun n =>
  if n = "t1" then
    { sample := Except.error ("permission denied")
      skew := wSkewErr, stale := wStaleNone, fk := wFkNone }
  else
    { sample := Except.ok wSampleEmpty
      skew := wSkewErr, stale := wStaleNone, fk := wFkNone }

def wSnapC1 : Snapshot := { dbType := "postgres", tables := [wTableA, wTableB] }

def wColId : Column := { name := "id", dataType := "integer", isPrimaryKey := true }

def wTableC3 : Table := { name := "t", columns := [wColId] }

def wIdCellsDup : List Cell := [Cell.num 1, Cell.num 1, Cell.num 2]

def wIdCellsNoDup : List Cell := [Cell.num 1, Cell.num 2, Cell.num 3]

def wDfDup : Sample := { cols := [("id", wIdCellsDup)], nrows := 3 }

def wDfNoDup : Sample := { cols := [("id", wIdCellsNoDup)], nrows := 3 }

def wOracleDup : TableOracle :=
  { sample := Except.ok wDfDup, skew := wSkewErr, stale := wStaleNone, fk := wFkNone }

def wCells100 : List Cell := List.replicate 100 (Cell.num 1)

def wCellsOutlier : List Cell :=
  [Cell.num 1, Cell.num 2, Cell.num 3, Cell.num 4, Cell.num 100]

def wPgOracleOk : PgOracle :=
  { tablesQ := Except.ok [], colsQ := Except.ok [], pkQ := Except.ok []
    fkQ := Except.ok [], uniqueQ := Except.ok [], indexQ := Except.ok [] }

/-- Every catalog query succeeds except the final index query. -/
def wPgOracleFail : PgOracle :=
  { tablesQ := Except.ok [], colsQ := Except.ok [], pkQ := Except.ok []
    fkQ := Except.ok [], uniqueQ := Except.ok []
    indexQ := Except.error ("permission denied") }

def wFkRowOrders : FkRow :=
  { tableName := "orders", columnName := "user_id"
    refTable := "users", refColumn := "id" }

def wPgTRowUsers : PgTableRow :=
  { tableName := "users", rowCount := 2, sizeBytes := 0, lastAnalyze := none }

def wPgTRowOrders : PgTableRow :=
  { tableName := "orders", rowCount := 1, sizeBytes := 0, lastAnalyze := none }

/-- The users table as pgAssemble builds it from the fixture rows. -/
def wUsersTable : Table :=
  { name := "users", rowCount := 2, sizeBytes := 0, lastModified := none
    columns := [], referencedBy := [("orders", "user_id")] }

/-! ## Lemmas: loop characterisations -/

lemma foldl_add_shift (l : List ℚ) :
    ∀ a : ℚ, l.foldl (fun s x => s + x) a = a + l.foldl (fun s x => s + x) 0 := by
  induction l with
  | nil => intro a; simp
  | cons x t ih =>
    intro a
    simp only [List.foldl_cons]
    rw [ih (a + x), ih (0 + x)]
    ring

lemma sumQ_nil : sumQ [] = 0 := rfl

lemma sumQ_cons (x : ℚ) (l : List ℚ) : sumQ (x :: l) = x + sumQ l := by
  unfold sumQ
  simp only [List.foldl_cons]
  rw [foldl_add_shift]
  ring

lemma compDeduction_cons (df : Sample) (rc : Nat)
    (skew : String → Except Unit (ℚ × ℚ)) (c : Column) (t : List Column) :
    compDeduction df rc skew (c :: t) =
      colDeduction df rc skew c + compDeduction df rc skew t := by
  simp [compDeduction, List.map_cons, sumQ_cons]

lemma colStep_foldl (df : Sample) (rc : Nat) (skew : String → Except Unit (ℚ × ℚ)) :
    ∀ (cols : List Column) (cs0 : List Column) (fl0 : List String) (s0 : ℚ),
      cols.foldl (colStep df rc skew) (cs0, fl0, s0) =
        (cs0 ++ cols.map (colUpdate df rc skew),
         fl0 ++ colFlags df rc skew cols,
         s0 - compDeduction df rc skew cols) := by
  intro cols
  induction cols with
  | nil =>
    intro cs0 fl0 s0
    simp [colFlags, compDeduction, sumQ_nil]
  | cons c t ih =>
    intro cs0 fl0 s0
    simp only [List.foldl_cons]
    cases h : df.findCol c.name with
    | none =>
      have hstep : colStep df rc skew (cs0, fl0, s0) c = (cs0 ++ [c], fl0, s0) := by
        simp [colStep, h]
      have h1 : colUpdate df rc skew c = c := by simp [colUpdate, h]
      have h2 : colFlags df rc skew (c :: t) = colFlags df rc skew t := by
        simp [colFlags, List.filterMap_cons, h]
      have h3 : compDeduction df rc skew (c :: t) = compDeduction df rc skew t := by
        rw [compDeduction_cons]
        simp [colDeduction, h]
      rw [hstep, ih, h2, h3]
      simp [h1, List.map_cons, List.append_assoc]
    | some cells =>
      by_cases hc : (computeColQuality cells rc (skew c.name)).completeness < 80
      · have hstep : colStep df rc skew (cs0, fl0, s0) c =
            (cs0 ++ [{ c with quality := some (computeColQuality cells rc (skew c.name)) }],
             fl0 ++ [lowCompletenessFlag c.name
                       (computeColQuality cells rc (skew c.name)).completeness],
             s0 - min 10 ((80 - (computeColQuality cells rc (skew c.name)).completeness) / 4)) := by
          simp [colStep, h, hc]
        have h1 : colUpdate df rc skew c =
            { c with quality := some (computeColQuality cells rc (skew c.name)) } := by
          simp [colUpdate, h]
        have h2 : colFlags df rc skew (c :: t) =
            lowCompletenessFlag c.name
                (computeColQuality cells rc (skew c.name)).completeness
              :: colFlags df rc skew t := by
          simp [colFlags, List.filterMap_cons, h, hc]
        have h3 : compDeduction df rc skew (c :: t) =
            min 10 ((80 - (computeColQuality cells rc (skew c.name)).completeness) / 4)
              + compDeduction df rc skew t := by
          rw [compDeduction_cons]
          simp [colDeduction, h, hc]
        rw [hstep, ih, h2, h3]
        simp only [List.map_cons, h1, Prod.mk.injEq, List.append_assoc,
          List.singleton_append]
        refine ⟨trivial, trivial, by ring⟩
      · have hstep : colStep df rc skew (cs0, fl0, s0) c =
            (cs0 ++ [{ c with quality := some (computeColQuality cells rc (skew c.name)) }],
             fl0, s0) := by
          simp [colStep, h, hc]
        have h1 : colUpdate df rc skew c =
            { c with quality := some (computeColQuality cells rc (skew c.name)) } := by
          simp [colUpdate, h]
        have h2 : colFlags df rc skew (c :: t) = colFlags df rc skew t := by
          simp [colFlags, List.filterMap_cons, h, hc]
        have h3 : compDeduction df rc skew (c :: t) = compDeduction df rc skew t := by
          rw [compDeduction_cons]
          simp [colDeduction, h, hc]
        rw [hstep, ih, h2, h3]
        simp [List.map_cons, h1, List.append_assoc]

lemma pkStep_eq (df : Sample) (columns : List Column) (fl : List String) (s : ℚ) :
    pkStep df columns (fl, s) =
      (fl ++ pkFlags df columns, s - (if pkDup df columns then 20 else 0)) := by
  unfold pkStep pkFlags pkDup
  cases h1 : (columns.filter fun c => c.isPrimaryKey).map Column.name with
  | nil => simp
  | cons pk rest =>
    cases h2 : df.findCol pk with
    | none => simp [h2]
    | some cells =>
      by_cases hd : hasDuplicate cells <;> simp [h2, hd]

lemma staleStep_foldl (df : Sample) (stale : String → StaleResult) :
    ∀ (dcols : List String) (fl : List String) (s : ℚ),
      dcols.foldl (staleStep df stale) (fl, s) =
        (fl ++ staleFlags df stale dcols, s - staleDeduction df stale dcols) := by
  intro dcols
  induction dcols with
  | nil =>
    intro fl s
    simp [staleFlags, staleDeduction]
  | cons d t ih =>
    intro fl s
    simp only [List.foldl_cons]
    cases h1 : df.findCol d with
    | none =>
      have hstep : staleStep df stale (fl, s) d = (fl, s) := by
        simp [staleStep, h1]
      have h2 : staleFlags df stale (d :: t) = staleFlags df stale t := by
        simp [staleFlags, List.filterMap_cons, h1]
      have h3 : staleDeduction df stale (d :: t) = staleDeduction df stale t := by
        simp [staleDeduction, List.filter_cons, staleFires, h1]
      rw [hstep, ih, h2, h3]
    | some cells =>
      cases h2 : stale d with
      | raised =>
        have hstep : staleStep df stale (fl, s) d = (fl, s) := by
          simp [staleStep, h1, h2]
        have h3 : staleFlags df stale (d :: t) = staleFlags df stale t := by
          simp [staleFlags, List.filterMap_cons, h1, h2]
        have h4 : staleDeduction df stale (d :: t) = staleDeduction df stale t := by
          simp [staleDeduction, List.filter_cons, staleFires, h1, h2]
        rw [hstep, ih, h3, h4]
      | parsedEmpty =>
        have hstep : staleStep df stale (fl, s) d = (fl, s) := by
          simp [staleStep, h1, h2]
        have h3 : staleFlags df stale (d :: t) = staleFlags df stale t := by
          simp [staleFlags, List.filterMap_cons, h1, h2]
        have h4 : staleDeduction df stale (d :: t) = staleDeduction df stale t := by
          simp [staleDeduction, List.filter_cons, staleFires, h1, h2]
        rw [hstep, ih, h3, h4]
      | daysOld n =>
        by_cases hn : 90 < n
        · have hstep : staleStep df stale (fl, s) d =
              (fl ++ ["Data may be stale, newest " ++ d ++ " value is "
                        ++ (toString n) ++ " days old"], s - 5) := by
            simp [staleStep, h1, h2, hn]
          have h3 : staleFlags df stale (d :: t) =
              ("Data may be stale, newest " ++ d ++ " value is "
                 ++ (toString n) ++ " days old") :: staleFlags df stale t := by
            simp [staleFlags, List.filterMap_cons, h1, h2, hn]
          have h4 : staleDeduction df stale (d :: t) = 5 + staleDeduction df stale t := by
            simp only [staleDeduction, List.filter_cons, staleFires, h1, h2]
            simp [hn]
            ring
          rw [hstep, ih, h3, h4]
          refine Prod.ext ?_ ?_ <;> simp [List.append_assoc]
          ring
        · have hstep : staleStep df stale (fl, s) d = (fl, s) := by
            simp [staleStep, h1, h2, hn]
          have h3 : staleFlags df stale (d :: t) = staleFlags df stale t := by
            simp [staleFlags, List.filterMap_cons, h1, h2, hn]
          have h4 : staleDeduction df stale (d :: t) = staleDeduction df stale t := by
            simp [staleDeduction, List.filter_cons, staleFires, h1, h2, hn]
          rw [hstep, ih, h3, h4]

lemma fkDeduction_cons (fk : String → FkResult) (c : Column) (t : List Column) :
    fkDeduction fk (c :: t) = fkColDeduction fk c + fkDeduction fk t := by
  simp [fkDeduction, List.map_cons, sumQ_cons]

lemma fkStep_foldl (fk : String → FkResult) :
    ∀ (cols : List Column) (fl : List String) (s : ℚ),
      cols.foldl (fkStep fk) (fl, s) =
        (fl ++ fkFlags fk cols, s - fkDeduction fk cols) := by
  intro cols
  induction cols with
  | nil =>
    intro fl s
    simp [fkFlags, fkDeduction, sumQ_nil]
  | cons c t ih =>
    intro fl s
    simp only [List.foldl_cons]
    cases h1 : fk c.name with
    | raised =>
      have hstep : fkStep fk (fl, s) c = (fl, s) := by
        simp [fkStep, h1]
      have h2 : fkFlags fk (c :: t) = fkFlags fk t := by
        simp [fkFlags, List.filterMap_cons, h1]
      have h3 : fkDeduction fk (c :: t) = fkDeduction fk t := by
        rw [fkDeduction_cons]
        simp [fkColDeduction, h1]
      rw [hstep, ih, h2, h3]
    | count n =>
      by_cases hn : 0 < n
      · have hstep : fkStep fk (fl, s) c =
            (fl ++ ["FK column " ++ c.name ++ " has " ++ (toString n)
                      ++ " orphaned references"], s - min 15 (n : ℚ)) := by
          simp [fkStep, h1, hn]
        have h2 : fkFlags fk (c :: t) =
            ("FK column " ++ c.name ++ " has " ++ (toString n)
               ++ " orphaned references") :: fkFlags fk t := by
          simp [fkFlags, List.filterMap_cons, h1, hn]
        have h3 : fkDeduction fk (c :: t) = min 15 (n : ℚ) + fkDeduction fk t := by
          rw [fkDeduction_cons]
          simp [fkColDeduction, h1, hn]
        rw [hstep, ih, h2, h3]
        refine Prod.ext ?_ ?_ <;> simp [List.append_assoc]
        ring
      · have hstep : fkStep fk (fl, s) c = (fl, s) := by
          simp [fkStep, h1, hn]
        have h2 : fkFlags fk (c :: t) = fkFlags fk t := by
          simp [fkFlags, List.filterMap_cons, h1, hn]
        have h3 : fkDeduction fk (c :: t) = fkDeduction fk t := by
          rw [fkDeduction_cons]
          simp [fkColDeduction, h1, hn]
        rw [hstep, ih, h2, h3]

/-- Master characterisation of a successful per-table pass. -/
lemma processTable_ok (t : Table) (o : TableOracle) (df : Sample)
    (h : o.sample = .ok df) :
    processTable t o =
      { t with
          columns := t.columns.map (colUpdate df (max df.nrows 1) o.skew)
          qualityScore :=
            some (max 0 (pyRoundInt (rawScore df o.skew o.stale o.fk t.columns)))
          qualityFlags :=
            colFlags df (max df.nrows 1) o.skew t.columns
              ++ pkFlags df t.columns
              ++ staleFlags df o.stale (dtColNames t.columns)
              ++ fkFlags o.fk (fkColumns3 t.columns) } := by
  unfold processTable
  rw [h]
  simp only [colStep_foldl, pkStep_eq, staleStep_foldl, fkStep_foldl, List.nil_append]
  simp only [rawScore]

/-! ## Lemmas: dict semantics -/

lemma dictLookup_append {α β : Type} [DecidableEq α] :
    ∀ (d₁ d₂ : List (α × β)) (k : α),
      dictLookup (d₁ ++ d₂) k =
        (match dictLookup d₁ k with
         | some v => some v
         | none => dictLookup d₂ k) := by
  intro d₁
  induction d₁ with
  | nil => intro d₂ k; simp [dictLookup]
  | cons p t ih =>
    intro d₂ k
    by_cases hp : p.1 = k <;> simp [dictLookup, hp, ih]

lemma dictLookup_none_of_not_any {α β : Type} [DecidableEq α] :
    ∀ (d : List (α × β)) (k : α),
      (d.any fun p => decide (p.1 = k)) = false → dictLookup d k = none := by
  intro d
  induction d with
  | nil => intro k _; rfl
  | cons p t ih =>
    intro k h
    simp only [List.any_cons, Bool.or_eq_false_iff] at h
    have hp : p.1 ≠ k := by simpa using h.1
    simp [dictLookup, hp, ih k h.2]

lemma dictLookup_isSome_of_any {α β : Type} [DecidableEq α] :
    ∀ (d : List (α × β)) (k : α),
      (d.any fun p => decide (p.1 = k)) = true → (dictLookup d k).isSome := by
  intro d
  induction d with
  | nil => intro k h; simp at h
  | cons p t ih =>
    intro k h
    by_cases hp : p.1 = k
    · simp [dictLookup, hp]
    · simp only [List.any_cons, Bool.or_eq_true] at h
      rcases h with h | h

      · exact absurd (of_decide_eq_true h) hp
      · simp only [dictLookup, hp, if_false]
        exact ih k h

lemma dictLookup_map_addv {α β : Type} [DecidableEq α] (k : α) (v : β) :
    ∀ (d : List (α × List β)) (R : α),
      dictLookup (d.map fun p => if p.1 = k then (p.1, p.2 ++ [v]) else p) R =
        (dictLookup d R).map fun l => if R = k then l ++ [v] else l := by
  intro d
  induction d with
  | nil => intro R; simp [dictLookup]
  | cons p t ih =>
    intro R
    by_cases hk : p.1 = k
    · by_cases hR : p.1 = R
      · have hRk : R = k := hR.symm.trans hk
        simp [dictLookup, hk, hR, hRk]
      · have hkR : ¬k = R := fun hh => hR (hk.trans hh)
        simp [dictLookup, hk, hR, hkR, ih]
    · by_cases hR : p.1 = R
      · have hRk : R ≠ k := fun hh => hk (hR.trans hh)
        simp [dictLookup, hk, hR, hRk]
      · simp [dictLookup, hk, hR, ih]

lemma lookupD_dictAppend {α β : Type} [DecidableEq α]
    (d : List (α × List β)) (k R : α) (v : β) :
    (dictLookup (dictAppend d k v) R).getD [] =
      (if R = k then (dictLookup d R).getD [] ++ [v]
       else (dictLookup d R).getD []) := by
  unfold dictAppend
  by_cases hmem : (d.any fun p => decide (p.1 = k)) = true
  · rw [if_pos hmem, dictLookup_map_addv]
    by_cases hR : R = k
    · subst hR
      have hsome := dictLookup_isSome_of_any d R hmem
      cases hl : dictLookup d R with
      | none => rw [hl] at hsome; simp at hsome
      | some l => simp [hl]
    · cases hl : dictLookup d R with
      | none => simp [hl, hR]
      | some l => simp [hl, hR]
  · rw [if_neg hmem, dictLookup_append]
    have hfalse : (d.any fun p => decide (p.1 = k)) = false :=
      Bool.eq_false_iff.mpr hmem
    by_cases hR : R = k
    · subst hR
      rw [dictLookup_none_of_not_any d R hfalse]
      simp [dictLookup]
    · have hkR : ¬k = R := fun hh => hR hh.symm
      cases hl : dictLookup d R with
      | none => simp [dictLookup, hl, hkR, hR]
      | some l => simp [hl, hR]

lemma lookupD_foldl_dictAppend {α β γ : Type} [DecidableEq α]
    (key : γ → α) (val : γ → β) :
    ∀ (rows : List γ) (acc : List (α × List β)) (R : α),
      (dictLookup (rows.foldl (fun d r => dictAppend d (key r) (val r)) acc) R).getD []
        = (dictLookup acc R).getD []
            ++ (rows.filter fun r => decide (key r = R)).map val := by
  intro rows
  induction rows with
  | nil => intro acc R; simp
  | cons r t ih =>
    intro acc R
    simp only [List.foldl_cons]
    rw [ih, lookupD_dictAppend]
    by_cases hr : key r = R
    · rw [if_pos hr.symm]
      simp [List.filter_cons, hr, List.append_assoc]
    · rw [if_neg (fun hh => hr hh.symm)]
      simp [List.filter_cons, hr]

lemma mem_refBy_iff (fks : List ((String × String) × (String × String)))
    (R : String) (tc : String × String) :
    tc ∈ (dictLookup (buildReferencedBy fks) R).getD [] ↔
      ∃ rc : String, (tc, (R, rc)) ∈ fks := by
  unfold buildReferencedBy
  rw [lookupD_foldl_dictAppend
        (fun e : (String × String) × (String × String) => e.2.1)
        (fun e : (String × String) × (String × String) => (e.1.1, e.1.2))
        fks [] R]
  simp only [dictLookup, Option.getD_none, List.nil_append]
  constructor
  · intro hmem
    rw [List.mem_map] at hmem
    obtain ⟨e, he, hval⟩ := hmem
    rw [List.mem_filter] at he
    refine ⟨e.2.2, ?_⟩
    have h2 : e.2.1 = R := by simpa using he.2
    have h1 : e = (tc, (R, e.2.2)) := by
      rw [Prod.ext_iff]
      constructor
      · rw [← hval]
      · rw [Prod.ext_iff]
        exact ⟨h2, rfl⟩
    rw [← h1]
    exact he.1
  · rintro ⟨rc, hmem⟩
    rw [List.mem_map]
    refine ⟨(tc, (R, rc)), ?_, rfl⟩
    rw [List.mem_filter]
    exact ⟨hmem, by simp⟩

lemma dictUpsert_map_fst {α β : Type} [DecidableEq α] (d : List (α × β))
    (k : α) (v : β) (hmem : (d.any fun p => decide (p.1 = k)) = true) :
    (dictUpsert d k v).map Prod.fst = d.map Prod.fst := by
  unfold dictUpsert
  rw [if_pos hmem, List.map_map]
  have hfun : (Prod.fst ∘ fun p : α × β => if p.1 = k then (p.1, v) else p)
      = Prod.fst := by
    funext p
    by_cases hp : p.1 = k <;> simp [hp]
  rw [hfun]

lemma keysNodup_dictUpsert {α β : Type} [DecidableEq α] (d : List (α × β))
    (k : α) (v : β) (h : (d.map Prod.fst).Nodup) :
    ((dictUpsert d k v).map Prod.fst).Nodup := by
  by_cases hmem : (d.any fun p => decide (p.1 = k)) = true
  · rw [dictUpsert_map_fst d k v hmem]
    exact h
  · unfold dictUpsert
    rw [if_neg hmem, List.map_append]
    have hnot : ∀ p ∈ d, p.1 ≠ k := by
      intro p hp hk
      exact hmem (List.any_eq_true.mpr ⟨p, hp, by simp [hk]⟩)
    refine List.Nodup.append h (List.nodup_singleton k) ?_
    intro a ha hb
    simp only [List.map_cons, List.map_nil, List.mem_singleton] at hb
    subst hb
    rw [List.mem_map] at ha
    obtain ⟨p, hp, hpa⟩ := ha
    exact hnot p hp hpa

lemma dictLookup_eq_some_iff {α β : Type} [DecidableEq α] :
    ∀ (d : List (α × β)), (d.map Prod.fst).Nodup → ∀ (k : α) (v : β),
      (dictLookup d k = some v ↔ (k, v) ∈ d) := by
  intro d
  induction d with
  | nil => intro _ k v; simp [dictLookup]
  | cons p t ih =>
    intro hnd k v
    rw [List.map_cons, List.nodup_cons] at hnd
    by_cases hp : p.1 = k
    · simp only [dictLookup, hp, if_true, List.mem_cons]
      constructor
      · intro hv
        left
        rw [Prod.ext_iff]
        exact ⟨hp.symm, (Option.some.inj hv).symm⟩
      · intro hmem
        rcases hmem with hmem | hmem
        · rw [← hmem]
        · exact absurd
            (List.mem_map.mpr ⟨(k, v), hmem, hp.symm⟩) hnd.1
    · simp only [dictLookup, hp, if_false, List.mem_cons]
      rw [ih hnd.2]
      constructor
      · intro hmem
        right
        exact hmem
      · intro hmem
        rcases hmem with hmem | hmem
        · exact absurd (congrArg Prod.fst hmem).symm hp
        · exact hmem

lemma keysNodup_foldl_dictUpsert {α β γ : Type} [DecidableEq α]
    (key : γ → α) (val : γ → β) :
    ∀ (rows : List γ) (acc : List (α × β)), (acc.map Prod.fst).Nodup →
      ((rows.foldl (fun d r => dictUpsert d (key r) (val r)) acc).map Prod.fst).Nodup := by
  intro rows
  induction rows with
  | nil => intro acc h; exact h
  | cons r t ih =>
    intro acc h
    simp only [List.foldl_cons]
    exact ih _ (keysNodup_dictUpsert acc (key r) (val r) h)

lemma buildFks_keysNodup (rows : List FkRow) :
    ((buildFks rows).map Prod.fst).Nodup :=
  keysNodup_foldl_dictUpsert (fun r => (r.tableName, r.columnName))
    (fun r => (r.refTable, r.refColumn)) rows [] (by simp)

/-! ## Lemmas: assembled table fields -/

lemma pgAssemble_fields (trows : List PgTableRow) (crows : List PgColRow)
    (pkr : List (String × String)) (fkr : List FkRow)
    (ur ir : List (String × String)) (T : Table)
    (hT : T ∈ pgAssemble trows crows pkr fkr ur ir) :
    T.referencedBy = (dictLookup (buildReferencedBy (buildFks fkr)) T.name).getD []
    ∧ T.columns = (dictLookup (pgColsByTable crows pkr (buildFks fkr) ur ir) T.name).getD [] := by
  unfold pgAssemble at hT
  rw [List.mem_map] at hT
  obtain ⟨r, hr, hTr⟩ := hT
  subst hTr
  exact ⟨rfl, rfl⟩

lemma myAssemble_fields (trows : List MyTableRow) (crows : List MyColRow)
    (fkr : List FkRow) (T : Table)
    (hT : T ∈ myAssemble trows crows fkr) :
    T.referencedBy = (dictLookup (buildReferencedBy (buildFks fkr)) T.name).getD []
    ∧ T.columns = (dictLookup (myColsByTable crows (buildFks fkr)) T.name).getD [] := by
  unfold myAssemble at hT
  rw [List.mem_map] at hT
  obtain ⟨r, hr, hTr⟩ := hT
  subst hTr
  exact ⟨rfl, rfl⟩

/-! ## Claim theorems -/

/-- C2 (counterexample): the sample query built for the postgres
dialect with known columns id, email selects star, not the column
list — refuting the claim that only the Schema columns are selected. -/
theorem load_sample_selects_star_cex :
    (loadSampleQuery ("postgres") ("users") (["id", "email"])).select
        = SelectCols.star
    ∧ (loadSampleQuery ("postgres") ("users") (["id", "email"])).select
        ≠ SelectCols.cols ["id", "email"] := by
  exact ⟨rfl, by decide⟩

/-- C2 (amended): the sample query always caps at 10000 rows, using TOP
for the mssql dialect and LIMIT otherwise, but selects all columns with
star; the column list passed in is ignored. -/
theorem load_sample_query_shape :
    ∀ (dbType tableName : String) (colNames : List String),
      (loadSampleQuery dbType tableName colNames).limitClause =
          (if dbType = "mssql" then LimitClause.top 10000 else LimitClause.limit 10000)
      ∧ (loadSampleQuery dbType tableName colNames).select = SelectCols.star := by
  intro d t c
  unfold loadSampleQuery
  by_cases h : d = "mssql" <;> simp [h]

/-- C6: an unknown dialect tag makes the Registry return a validation
error (and, the embedding being pure, no connection is ever attempted),
while each of the four supported tags returns its matching connector. -/
theorem registry_dispatch :
    (∀ dbType : String,
        dbType ∉ (["postgres", "mysql", "mssql", "snowflake"] : List String) →
        getConnector dbType =
          Except.error ("Unsupported database type: " ++ dbType))
    ∧ getConnector ("postgres") = Except.ok Connector.postgres
    ∧ getConnector ("mysql") = Except.ok Connector.mysql
    ∧ getConnector ("mssql") = Except.ok Connector.mssql
    ∧ getConnector ("snowflake") = Except.ok Connector.snowflake := by
  refine ⟨?_, rfl, rfl, rfl, rfl⟩
  intro d hd
  simp only [List.mem_cons, not_or, List.not_mem_nil, or_false] at hd
  obtain ⟨h1, h2, h3, h4⟩ := hd
  have b1 : (d == "postgres") = false := beq_eq_false_iff_ne.mpr h1
  have b2 : (d == "mysql") = false := beq_eq_false_iff_ne.mpr h2
  have b3 : (d == "mssql") = false := beq_eq_false_iff_ne.mpr h3
  have b4 : (d == "snowflake") = false := beq_eq_false_iff_ne.mpr h4
  simp [getConnector, connectorRegistry, List.lookup, b1, b2, b3, b4]

/-- C6 witness: the unsupported tag oracle is rejected. -/
theorem registry_dispatch_witness :
    getConnector ("oracle") = Except.error ("Unsupported database type: " ++ "oracle") :=
  registry_dispatch.1 ("oracle") (by decide)

/-- C9 (counterexample): with at least five numeric samples and a
raising skew computation, skewness and kurtosis are present in the
quality record with value None — not absent as the claim states. -/
theorem skew_error_null_cex :
    (computeColQuality wCellsOutlier 5 (Except.error ())).numeric.map NumProfile.skewness
        = some SkewField.nullVal
    ∧ (computeColQuality wCellsOutlier 5 (Except.error ())).numeric.map NumProfile.kurtosis
        = some SkewField.nullVal
    ∧ SkewField.nullVal ≠ SkewField.absent := by
  refine ⟨rfl, rfl, by decide⟩

/-- C9 (amended): when the skewness/kurtosis computation raises, both
fields are set to None (null) in the quality record — present as
placeholders, not absent and not numeric; when it succeeds both carry
its numeric results. -/
theorem skew_error_sets_null (cells : List Cell) (rowCount : Nat)
    (h : 5 ≤ (numericSeries cells).length) :
    (computeColQuality cells rowCount (Except.error ())).numeric.map NumProfile.skewness
        = some SkewField.nullVal
    ∧ (computeColQuality cells rowCount (Except.error ())).numeric.map NumProfile.kurtosis
        = some SkewField.nullVal
    ∧ (∀ s k : ℚ,
        (computeColQuality cells rowCount (Except.ok (s, k))).numeric.map NumProfile.skewness
            = some (SkewField.value s)
        ∧ (computeColQuality cells rowCount (Except.ok (s, k))).numeric.map NumProfile.kurtosis
            = some (SkewField.value k)) := by
  refine ⟨?_, ?_, ?_⟩
  · simp [computeColQuality, h]
  · simp [computeColQuality, h]
  · intro s k
    constructor <;> simp [computeColQuality, h]

/-- C9 witness: the amended claim at a concrete five-value column. -/
theorem skew_error_sets_null_witness :
    (computeColQuality wCellsOutlier 5 (Except.error ())).numeric.map NumProfile.skewness
      = some SkewField.nullVal :=
  (skew_error_sets_null wCellsOutlier 5 (by decide)).1

/-- C10: a snowflake snapshot makes the profiler raise ValueError while
opening its connection — uniformly in the tables and the sampling
oracle, so before any table is sampled or any fallback score assigned —
and the profiler supports exactly the postgres, mysql and mssql tags. -/
theorem profiler_rejects_snowflake :
    (∀ (tables : List Table) (oracle : String → TableOracle),
        runQualityAnalysis { dbType := "snowflake", tables := tables } oracle =
          { result := Except.error
                ("Unsupported db_type for quality analysis: " ++ "snowflake")
            dbConnsOpened := 0
            dbConnClosed := false })
    ∧ (∀ d : String,
        exceptIsOk (getDbConnection d) = true ↔
          d ∈ (["postgres", "mysql", "mssql"] : List String)) := by
  constructor
  · intro tables oracle
    rfl
  · intro d
    unfold getDbConnection
    by_cases h1 : d = "postgres"
    · simp [h1, exceptIsOk]
    · by_cases h2 : d = "mysql"
      · simp [h1, h2, exceptIsOk]
      · by_cases h3 : d = "mssql"
        · simp [h1, h2, h3, exceptIsOk]
        · simp [h1, h2, h3, exceptIsOk]

/-- C1: once the connection is established, a failed sample load for a
member table assigns that table the fallback score 50 and exactly one
flag, leaves its columns and their quality fields untouched, and the
run still processes every table of the snapshot — it is never aborted
by one table. -/
theorem sample_failure_is_isolated
    (snap : Snapshot) (oracle : String → TableOracle) (t : Table) (e : String)
    (_hne : snap.tables ≠ [])
    (hconn : getDbConnection snap.dbType = Except.ok ())
    (hmem : t ∈ snap.tables)
    (hfail : (oracle t.name).sample = Except.error e) :
    (runQualityAnalysis snap oracle).result =
        Except.ok (snap.tables.map fun tb => processTable tb (oracle tb.name))
    ∧ (snap.tables.map fun tb => processTable tb (oracle tb.name)).length
        = snap.tables.length
    ∧ processTable t (oracle t.name)
        ∈ (snap.tables.map fun tb => processTable tb (oracle tb.name))
    ∧ (processTable t (oracle t.name)).qualityScore = some 50
    ∧ (processTable t (oracle t.name)).qualityFlags
        = ["Could not load sample data for analysis"]
    ∧ (processTable t (oracle t.name)).qualityFlags.length = 1
    ∧ (processTable t (oracle t.name)).columns = t.columns := by
  have hpt : processTable t (oracle t.name) =
      { t with qualityScore := some 50
               qualityFlags := ["Could not load sample data for analysis"] } := by
    unfold processTable
    rw [hfail]
  refine ⟨?_, List.length_map _ _, ?_, ?_, ?_, ?_, ?_⟩
  · simp [runQualityAnalysis, hconn]
  · exact List.mem_map_of_mem _ hmem
  · rw [hpt]
  · rw [hpt]
  · rw [hpt]
    rfl
  · rw [hpt]

/-- C1 witness: the concrete two-table snapshot whose first table fails
to sample. -/
theorem sample_failure_is_isolated_witness :
    (processTable wTableA (wOracleC1 wTableA.name)).qualityScore = some 50
    ∧ (processTable wTableA (wOracleC1 wTableA.name)).qualityFlags.length = 1
    ∧ (processTable wTableA (wOracleC1 wTableA.name)).columns = wTableA.columns := by
  have h := sample_failure_is_isolated wSnapC1 wOracleC1 wTableA ("permission denied")
    (by decide) rfl (by decide) rfl
  exact ⟨h.2.2.2.1, h.2.2.2.2.2.1, h.2.2.2.2.2.2⟩

/-- C7 (counterexample): a successful profiling run over a postgres
snapshot returns with the analysis database connection still open,
refuting closed-on-every-exit-path. -/
theorem conn_left_open_cex :
    exceptIsOk (runQualityAnalysis { dbType := "postgres", tables := [] } trivOracle).result
        = true
    ∧ (runQualityAnalysis { dbType := "postgres", tables := [] } trivOracle).dbConnClosed
        = false :=
  ⟨rfl, rfl⟩

/-- C7 (amended): extract (postgres and mysql) closes its connection
exactly on the all-queries-succeeded path — a raising catalog query,
even the final secondary one, leaves it open — while profile opens
exactly one connection for the whole run on a supported dialect, reuses
it across all tables, and closes it on no exit path. -/
theorem connection_lifecycle :
    (∀ (o : PgOracle) (ts : List Table),
        pgExtractResult o = Except.ok ts → (pgExtract o).connClosed = true)
    ∧ (∀ (o : PgOracle) (e : String),
        pgExtractResult o = Except.error e → (pgExtract o).connClosed = false)
    ∧ (∀ (o : PgOracle) (e : String),
        o.indexQ = Except.error e → (pgExtract o).connClosed = false)
    ∧ (∀ (o : MyOracle) (ts : List Table),
        myExtractResult o = Except.ok ts → (myExtract o).connClosed = true)
    ∧ (∀ (o : MyOracle) (e : String),
        myExtractResult o = Except.error e → (myExtract o).connClosed = false)
    ∧ (∀ (snap : Snapshot) (oracle : String → TableOracle),
        (runQualityAnalysis snap oracle).dbConnClosed = false
        ∧ (exceptIsOk (getDbConnection snap.dbType) = true →
            (runQualityAnalysis snap oracle).dbConnsOpened = 1)) := by
  refine ⟨?_, ?_, ?_, ?_, ?_, ?_⟩
  · intro o ts h
    simp [pgExtract, h, exceptIsOk]
  · intro o e h
    simp [pgExtract, h, exceptIsOk]
  · intro o e h
    simp only [pgExtract]
    show exceptIsOk (pgExtractResult o) = false
    unfold pgExtractResult
    cases h1 : o.tablesQ with
    | error e1 => rfl
    | ok trows =>
      cases h2 : o.colsQ with
      | error e2 => rfl
      | ok crows =>
        cases h3 : o.pkQ with
        | error e3 => rfl
        | ok pkr =>
          cases h4 : o.fkQ with
          | error e4 => rfl
          | ok fkr =>
            cases h5 : o.uniqueQ with
            | error e5 => rfl
            | ok ur =>
              rw [h]
              rfl
  · intro o ts h
    simp [myExtract, h, exceptIsOk]
  · intro o e h
    simp [myExtract, h, exceptIsOk]
  · intro snap oracle
    constructor
    · rcases hcase : getDbConnection snap.dbType with e | u <;>
        simp [runQualityAnalysis, hcase]
    · intro hok
      rcases hcase : getDbConnection snap.dbType with e | u
      · rw [hcase] at hok
        simp [exceptIsOk] at hok
      · simp [runQualityAnalysis, hcase]

/-- C7 witness: the amended lifecycle at concrete oracles — a fully
successful extract closes, an extract whose index query raises does
not, and a concrete profiling run leaves its single connection open. -/
theorem connection_lifecycle_witness :
    (pgExtract wPgOracleOk).connClosed = true
    ∧ (pgExtract wPgOracleFail).connClosed = false
    ∧ (runQualityAnalysis wSnapC1 wOracleC1).dbConnClosed = false
    ∧ (runQualityAnalysis wSnapC1 wOracleC1).dbConnsOpened = 1 :=
  ⟨connection_lifecycle.1 wPgOracleOk (pgAssemble [] [] [] [] [] []) rfl,
   connection_lifecycle.2.2.1 wPgOracleFail ("permission denied") rfl,
   (connection_lifecycle.2.2.2.2.2 wSnapC1 wOracleC1).1,
   (connection_lifecycle.2.2.2.2.2 wSnapC1 wOracleC1).2 rfl⟩

/-- C3: for a successfully sampled table the stored score is
max(0, round(100 minus the low-completeness deductions min(10,
(80 - completeness)/4), minus a flat 20 when the first primary-key
column has a duplicate, minus 5 per stale date/time column, minus
min(15, orphans) over the first three foreign-key columns)); and two
tables whose other deduction components agree differ by exactly 20
points before rounding and flooring when exactly one of them has a
duplicated primary key. -/
theorem quality_score_decomposition :
    (∀ (t : Table) (o : TableOracle) (df : Sample),
        o.sample = Except.ok df →
        (processTable t o).qualityScore =
          some (max 0 (pyRoundInt
            (100 - compDeduction df (max df.nrows 1) o.skew t.columns
                 - (if pkDup df t.columns then 20 else 0)
                 - staleDeduction df o.stale (dtColNames t.columns)
                 - fkDeduction o.fk (fkColumns3 t.columns)))))
    ∧ (∀ (df₁ df₂ : Sample)
         (sk₁ sk₂ : String → Except Unit (ℚ × ℚ))
         (st₁ st₂ : String → StaleResult)
         (f₁ f₂ : String → FkResult)
         (cols₁ cols₂ : List Column),
        compDeduction df₁ (max df₁.nrows 1) sk₁ cols₁
            = compDeduction df₂ (max df₂.nrows 1) sk₂ cols₂ →
        staleDeduction df₁ st₁ (dtColNames cols₁)
            = staleDeduction df₂ st₂ (dtColNames cols₂) →
        fkDeduction f₁ (fkColumns3 cols₁) = fkDeduction f₂ (fkColumns3 cols₂) →
        pkDup df₁ cols₁ = true →
        pkDup df₂ cols₂ = false →
        rawScore df₁ sk₁ st₁ f₁ cols₁ = rawScore df₂ sk₂ st₂ f₂ cols₂ - 20) := by
  constructor
  · intro t o df h
    rw [processTable_ok t o df h]
    rfl
  · intro df₁ df₂ sk₁ sk₂ st₁ st₂ f₁ f₂ cols₁ cols₂ hc hs hf hd₁ hd₂
    unfold rawScore
    rw [hc, hs, hf, hd₁, hd₂]
    simp
    ring

/-- C3 witness: the duplicate-id table scores 80, and the concrete
duplicate/no-duplicate pair differs by exactly 20 before rounding. -/
theorem quality_score_decomposition_witness :
    (processTable wTableC3 wOracleDup).qualityScore = some 80
    ∧ rawScore wDfDup wSkewErr wStaleNone wFkNone [wColId]
        = rawScore wDfNoDup wSkewErr wStaleNone wFkNone [wColId] - 20 := by
  constructor
  · rw [quality_score_decomposition.1 wTableC3 wOracleDup wDfDup rfl]
    decide
  · exact quality_score_decomposition.2 wDfDup wDfNoDup wSkewErr wSkewErr
      wStaleNone wStaleNone wFkNone wFkNone [wColId] [wColId]
      (by decide) (by decide) (by decide) (by decide) (by decide)

/-- C4: a sampled column's stored completeness is
round((1 - nullCount/N) * 100, 2) and its uniquenessRatio is
round(distinctCount/N, 4) for positive N; a column with 100 sampled
rows and no nulls has completeness exactly 100; and inside a successful
table pass every column present in the dataframe receives exactly this
quality record. -/
theorem column_completeness_uniqueness
    (cells : List Cell) (rowCount : Nat) (skewRes : Except Unit (ℚ × ℚ)) :
    (computeColQuality cells rowCount skewRes).completeness
        = pyRound ((1 - (nullCountOf cells : ℚ) / (rowCount : ℚ)) * 100) 2
    ∧ (0 < rowCount →
        (computeColQuality cells rowCount skewRes).uniquenessRatio
          = pyRound ((distinctCountOf cells : ℚ) / (rowCount : ℚ)) 4)
    ∧ (rowCount = 100 → nullCountOf cells = 0 →
        (computeColQuality cells rowCount skewRes).completeness = 100)
    ∧ (∀ (t : Table) (o : TableOracle) (df : Sample),
        o.sample = Except.ok df →
        ∀ (col : Column) (cs : List Cell),
          col ∈ t.columns → df.findCol col.name = some cs →
          { col with
              quality := some (computeColQuality cs (max df.nrows 1) (o.skew col.name)) }
            ∈ (processTable t o).columns) := by
  refine ⟨rfl, ?_, ?_, ?_⟩
  · intro h
    simp [computeColQuality, h]
  · intro h1 h2
    subst h1
    simp only [computeColQuality, h2, Nat.cast_zero]
    norm_num
    decide
  · intro t o df hs col cs hmem hfind
    rw [processTable_ok t o df hs]
    refine List.mem_map.mpr ⟨col, hmem, ?_⟩
    simp [colUpdate, hfind]

/-- C4 witness: 100 sampled rows with no nulls give completeness 100,
the uniqueness formula holds there, and the concrete id column of the
duplicate-id table receives its computed quality record. -/
theorem column_completeness_uniqueness_witness :
    (computeColQuality wCells100 100 (Except.error ())).completeness = 100
    ∧ (computeColQuality wCells100 100 (Except.error ())).uniquenessRatio
        = pyRound ((distinctCountOf wCells100 : ℚ) / (100 : ℚ)) 4
    ∧ { wColId with
          quality := some (computeColQuality wIdCellsDup (max wDfDup.nrows 1) (wOracleDup.skew wColId.name)) }
        ∈ (processTable wTableC3 wOracleDup).columns :=
  ⟨(column_completeness_uniqueness wCells100 100 (Except.error ())).2.2.1 rfl (by decide),
   (column_completeness_uniqueness wCells100 100 (Except.error ())).2.1 (by decide),
   (column_completeness_uniqueness wIdCellsDup 3 (Except.error ())).2.2.2
     wTableC3 wOracleDup wDfDup rfl wColId wIdCellsDup (by decide) rfl⟩

/-- C5: the numeric sub-profile exists exactly when at least five
sampled values coerce to a number; its outlierCount is the Tukey-fence
count, maxed with the z-score count only when the sample standard
deviation is positive; outlierPct is round(outlierCount/N * 100, 2);
and the sample 1, 2, 3, 4, 100 yields outlierCount 1. -/
theorem numeric_subprofile_trigger_and_outliers
    (cells : List Cell) (rowCount : Nat) (skewRes : Except Unit (ℚ × ℚ)) :
    ((computeColQuality cells rowCount skewRes).numeric.isSome
        ↔ 5 ≤ (numericSeries cells).length)
    ∧ ((computeColQuality cells rowCount skewRes).numeric.map NumProfile.outlierCount
        = (if 5 ≤ (numericSeries cells).length then
             some (if 0 < sampleVar (numericSeries cells)
                   then max (iqrOutlierCount (numericSeries cells))
                            (zOutlierCount (numericSeries cells))
                   else iqrOutlierCount (numericSeries cells))
           else none))
    ∧ ((computeColQuality cells rowCount skewRes).numeric.map NumProfile.outlierPct
        = (if 5 ≤ (numericSeries cells).length then
             some (pyRound ((outlierCountOf (numericSeries cells) : ℚ)
                              / (rowCount : ℚ) * 100) 2)
           else none))
    ∧ ((computeColQuality wCellsOutlier 5 skewRes).numeric.map NumProfile.outlierCount
        = some 1) := by
  refine ⟨?_, ?_, ?_, ?_⟩
  · by_cases h : 5 ≤ (numericSeries cells).length <;> simp [computeColQuality, h]
  · by_cases h : 5 ≤ (numericSeries cells).length <;>
      simp [computeColQuality, h, outlierCountOf]
  · by_cases h : 5 ≤ (numericSeries cells).length <;>
      simp [computeColQuality, h]
  · have h5 : 5 ≤ (numericSeries wCellsOutlier).length := by decide
    simp only [computeColQuality, h5, if_true, Option.map_some']
    decide

/-- C8: for postgres and mysql extractions, a pair (T, C) sits in table
R's referencedBy exactly when the forward foreign-key map sends (T, C)
to a column of R; a table nothing points at gets the empty list; a
table with no column-metadata rows still appears, with an empty column
list. -/
theorem referencedBy_is_inverse :
    (∀ (trows : List PgTableRow) (crows : List PgColRow)
       (pkr ur ir : List (String × String)) (fkr : List FkRow) (T : Table),
        T ∈ pgAssemble trows crows pkr fkr ur ir →
        (∀ tc : String × String,
            tc ∈ T.referencedBy ↔
              ∃ rc : String, dictLookup (buildFks fkr) tc = some (T.name, rc))
        ∧ ((∀ (tc : String × String) (rc : String),
              dictLookup (buildFks fkr) tc ≠ some (T.name, rc)) →
            T.referencedBy = [])
        ∧ ((∀ r ∈ crows, r.tableName ≠ T.name) → T.columns = []))
    ∧ (∀ (trows : List PgTableRow) (crows : List PgColRow)
       (pkr ur ir : List (String × String)) (fkr : List FkRow)
       (tr : PgTableRow), tr ∈ trows →
        ∃ T, T ∈ pgAssemble trows crows pkr fkr ur ir ∧ T.name = tr.tableName)
    ∧ (∀ (trows : List MyTableRow) (crows : List MyColRow)
       (fkr : List FkRow) (T : Table),
        T ∈ myAssemble trows crows fkr →
        (∀ tc : String × String,
            tc ∈ T.referencedBy ↔
              ∃ rc : String, dictLookup (buildFks fkr) tc = some (T.name, rc))
        ∧ ((∀ (tc : String × String) (rc : String),
              dictLookup (buildFks fkr) tc ≠ some (T.name, rc)) →
            T.referencedBy = [])
        ∧ ((∀ r ∈ crows, r.tableName ≠ T.name) → T.columns = []))
    ∧ (∀ (trows : List MyTableRow) (crows : List MyColRow)
       (fkr : List FkRow) (tr : MyTableRow), tr ∈ trows →
        ∃ T, T ∈ myAssemble trows crows fkr ∧ T.name = tr.tableName) := by
  refine ⟨?_, ?_, ?_, ?_⟩
  · intro trows crows pkr ur ir fkr T hT
    obtain ⟨hrefBy, hcols⟩ := pgAssemble_fields trows crows pkr fkr ur ir T hT
    refine ⟨?_, ?_, ?_⟩
    · intro tc
      rw [hrefBy, mem_refBy_iff]
      exact exists_congr fun rc =>
        (dictLookup_eq_some_iff (buildFks fkr) (buildFks_keysNodup fkr)
          tc (T.name, rc)).symm
    · intro hnone
      rw [hrefBy, List.eq_nil_iff_forall_not_mem]
      intro tc htc
      rw [mem_refBy_iff] at htc
      obtain ⟨rc, hm⟩ := htc
      exact hnone tc rc
        ((dictLookup_eq_some_iff (buildFks fkr) (buildFks_keysNodup fkr)
            tc (T.name, rc)).mpr hm)
    · intro hno
      rw [hcols]
      unfold pgColsByTable
      rw [lookupD_foldl_dictAppend (fun r : PgColRow => r.tableName)
            (pgColRecord pkr (buildFks fkr) ur ir) crows [] T.name]
      have hfil : crows.filter (fun r => decide (r.tableName = T.name)) = [] := by
        rw [List.filter_eq_nil_iff]
        intro r hr
        simpa using hno r hr
      rw [hfil]
      simp [dictLookup]
  · intro trows crows pkr ur ir fkr tr htr
    unfold pgAssemble
    exact ⟨_, List.mem_map_of_mem _ htr, rfl⟩
  · intro trows crows fkr T hT
    obtain ⟨hrefBy, hcols⟩ := myAssemble_fields trows crows fkr T hT
    refine ⟨?_, ?_, ?_⟩
    · intro tc
      rw [hrefBy, mem_refBy_iff]
      exact exists_congr fun rc =>
        (dictLookup_eq_some_iff (buildFks fkr) (buildFks_keysNodup fkr)
          tc (T.name, rc)).symm
    · intro hnone
      rw [hrefBy, List.eq_nil_iff_forall_not_mem]
      intro tc htc
      rw [mem_refBy_iff] at htc
      obtain ⟨rc, hm⟩ := htc
      exact hnone tc rc
        ((dictLookup_eq_some_iff (buildFks fkr) (buildFks_keysNodup fkr)
            tc (T.name, rc)).mpr hm)
    · intro hno
      rw [hcols]
      unfold myColsByTable
      rw [lookupD_foldl_dictAppend (fun r : MyColRow => r.tableName)
            (myColRecord (buildFks fkr)) crows [] T.name]
      have hfil : crows.filter (fun r => decide (r.tableName = T.name)) = [] := by
        rw [List.filter_eq_nil_iff]
        intro r hr
        simpa using hno r hr
      rw [hfil]
      simp [dictLookup]
  · intro trows crows fkr tr htr
    unfold myAssemble
    exact ⟨_, List.mem_map_of_mem _ htr, rfl⟩

/-- C8 witness: in the concrete users/orders extraction the pair
(orders, user_id) appears in the referencedBy of users. -/
theorem referencedBy_is_inverse_witness :
    ("orders", "user_id") ∈ wUsersTable.referencedBy := by
  have h := (referencedBy_is_inverse.1 [wPgTRowUsers, wPgTRowOrders] [] [] [] []
    [wFkRowOrders] wUsersTable (by decide)).1 (("orders", "user_id"))
  exact h.mpr ⟨"id", by decide⟩

end DataLens
